import Mathlib

/-!
# Shallow embedding of the `rust-temporal-demos` orchestration core

This file embeds the orchestration logic of two crates of the repository:

* `food-ordering-rust` — the order aggregate (`src/types.rs`,
  `src/workflows.rs`, `src/activities.rs`);
* `schedule-payments-rust` — the payment batch scheduler
  (`src/data.rs`, `src/activities.rs`, `src/workflows.rs`).

Pure functions are translated to Lean functions; workflows (straight-line
async code issuing activity calls) are translated to functions from an
environment of activity/child outcomes to a run record listing the calls
issued, the status assignments performed, and the exit outcome.  Machine
integers (`u32`) are modelled as `Nat` with explicit `% 2^32` at the one
place where the source performs unchecked addition (`quantity +=`, which
wraps in release builds); `saturating_sub` on `u32` coincides with
truncated `Nat` subtraction.
-/

namespace FoodOrdering

/-- Enum `OrderStatus` from `food-ordering-rust/src/types.rs`. -/
inductive OrderStatus where
  | Default
  | Pending
  | Accepted
  | Preparing
  | Ready
  | Completed
  | Rejected
deriving DecidableEq, Repr

/-- Struct `Address` from `food-ordering-rust/src/types.rs`. -/
structure Address where
  line1 : String
  line2 : Option String
  line3 : Option String
  town : String
  county : Option String
  post_code : String
deriving DecidableEq, Repr

/-- Struct `OrderProduct` from `food-ordering-rust/src/types.rs`.
`product_id` and `quantity` are `u32` in the source, modelled as `Nat`. -/
structure OrderProduct where
  product_id : Nat
  quantity : Nat
deriving DecidableEq, Repr

/-- Struct `OrderState` from `food-ordering-rust/src/types.rs`. -/
structure OrderState where
  collection : Bool
  delivery_address : Option Address
  email : String
  products : List OrderProduct
  status : OrderStatus
deriving DecidableEq, Repr

/-- Modulus of `u32` arithmetic: quantities are 32-bit unsigned in the source. -/
def u32Mod : Nat := 4294967296

/-- The loop body of `OrderState::add_item`: walk the product list, and on
the first entry with a matching `product_id` add the incoming quantity to it
(`existing_item.quantity += item.quantity`, which is wrapping `u32` addition
in release builds, hence the `% u32Mod`); if no entry matches, push the item
at the end. -/
def addToProducts (item : OrderProduct) : List OrderProduct → List OrderProduct
  | [] => [item]
  | e :: rest =>
    if e.product_id = item.product_id then
      { e with quantity := (e.quantity + item.quantity) % u32Mod } :: rest
    else
      e :: addToProducts item rest

/-- Method `OrderState::add_item` from `food-ordering-rust/src/types.rs`. -/
def OrderState.add_item (s : OrderState) (item : OrderProduct) : OrderState :=
  { s with products := addToProducts item s.products }

/-- The `retain_mut` body of `OrderState::remove_item`: each entry with the
matching `product_id` has its quantity decremented with `saturating_sub`
(truncated `Nat` subtraction) and is kept only if the result is positive;
all other entries are kept unchanged. -/
def removeFromProducts (item : OrderProduct) (l : List OrderProduct) : List OrderProduct :=
  l.filterMap fun e =>
    if e.product_id = item.product_id then
      if e.quantity - item.quantity > 0 then
        some { e with quantity := e.quantity - item.quantity }
      else
        none
    else
      some e

/-- Method `OrderState::remove_item` from `food-ordering-rust/src/types.rs`. -/
def OrderState.remove_item (s : OrderState) (item : OrderProduct) : OrderState :=
  { s with products := removeFromProducts item s.products }

/-- Constructor `OrderState::new` from `food-ordering-rust/src/types.rs`. -/
def OrderState.new : OrderState :=
  { collection := false
  , delivery_address := none
  , email := ""
  , products := []
  , status := OrderStatus.Default }

end FoodOrdering

namespace SchedulePayments

/-- Enum `Schedule` from `schedule-payments-rust/src/data.rs`. -/
inductive Schedule where
  | Daily
  | Weekly
  | Monthly
deriving DecidableEq, Repr

/-- Struct `PaymentData` from `schedule-payments-rust/src/data.rs`.
`schedule_time` and `amount_in_pence` are `u32` in the source. -/
structure PaymentData where
  schedule_time : Nat
  schedule : Schedule
  amount_in_pence : Nat
  sender_id : String
  recipient_id : String
deriving DecidableEq, Repr

/-- Struct `SendPaymentResult` from `schedule-payments-rust/src/data.rs`
(`transaction_id` is a `Uuid`, modelled as a `String`). -/
structure SendPaymentResult where
  amount_in_pence : Nat
  transaction_id : String
deriving DecidableEq, Repr

/-- The current date as read by `Utc::now()` inside the
`find_payments_for_day` activity: `weekday().num_days_from_monday()`
(0 = Monday) and `day()` (day of month, 1-based). -/
structure Today where
  num_days_from_monday : Nat
  day : Nat
deriving DecidableEq, Repr

/-- ISO weekday of a date, 1 = Monday: the source computes it as
`now.weekday().num_days_from_monday() + 1`. -/
def Today.isoWeekday (t : Today) : Nat := t.num_days_from_monday + 1

/-- The per-record inclusion test of the `find_payments_for_day` activity
(`schedule-payments-rust/src/activities.rs`, the `match item.schedule`
inside the loop). -/
def isDue (now : Today) (item : PaymentData) : Bool :=
  match item.schedule with
  | Schedule.Weekly => now.num_days_from_monday + 1 = item.schedule_time
  | Schedule.Monthly => now.day = item.schedule_time
  | Schedule.Daily => true

/-- Activity `find_payments_for_day` from `schedule-payments-rust/src/activities.rs`.
The activity receives the `(start_time, end_time)` window (modelled as
integer timestamps), reads the current date (`Utc::now()`, modelled by the
`now` parameter) and the underlying data set (`generate_data()`, modelled by
the `data` parameter), and pushes every record whose schedule matches the
current date.  The window arguments are only logged by the source; the
selection itself never reads them. -/
def find_payments_for_day (start_time end_time : Int) (now : Today)
    (data : List PaymentData) : List PaymentData :=
  let _ := start_time
  let _ := end_time
  data.filter (isDue now)

/-- A child-workflow handle started by `find_due_payments_workflow`:
`workflow_id`, `workflow_type` and the serialized input. -/
structure ChildHandle where
  workflow_id : String
  workflow_type : String
  input : PaymentData
deriving DecidableEq, Repr

/-- Terminal result of one `make_payment` child workflow as observed by the
parent: either it completed, or it failed (its `send_payment` activity
exhausted retries, so its `unwrap_ok_payload` panicked). -/
inductive ChildResult where
  | ok (r : SendPaymentResult)
  | failed
deriving DecidableEq, Repr

/-- Exit outcome of a workflow body: it either returns
`Ok(WfExitValue::Normal(()))` — a unit payload, carrying no other data — or
panics (an `unwrap_ok_payload` on a failed activity). -/
inductive WfOutcome where
  | normal
  | panicked
deriving DecidableEq, Repr

/-- The join loop of `find_due_payments_workflow`
(`for future in child_futures { ... started.result().await; }`): every
child future is awaited to its terminal result, in order; the result is
discarded and the loop continues regardless of whether the child failed. -/
def joinChildren : List ChildResult → List ChildResult
  | [] => []
  | r :: rest => r :: joinChildren rest

/-- A run of `find_due_payments_workflow`
(`schedule-payments-rust/src/workflows.rs`): `payments` is the list the
`find_payments_for_day` activity returned, `results` the terminal results
of the started children, in start order.  The workflow starts one
`make_payment` child per payment with workflow id `payment_{i}`, awaits
every child, ignores each result, and unconditionally returns
`Ok(WfExitValue::Normal(()))`. -/
structure BatchRun where
  started : List ChildHandle
  awaited : List ChildResult
  output : WfOutcome
deriving DecidableEq, Repr

/-- Workflow `find_due_payments_workflow` from
`schedule-payments-rust/src/workflows.rs`, as a function of the due-payment
list delivered by the activity and the children's terminal results. -/
def find_due_payments_workflow (payments : List PaymentData)
    (results : List ChildResult) : BatchRun :=
  { started := payments.enum.map fun ip =>
      { workflow_id := "payment_" ++ toString ip.1
      , workflow_type := "make_payment"
      , input := ip.2 }
  , awaited := joinChildren results
  , output := WfOutcome.normal }

/-- An activity invocation issued by a schedule-payments workflow. -/
structure PaymentCall where
  activity_type : String
  input : PaymentData
  start_to_close_timeout_secs : Nat
deriving DecidableEq, Repr

/-- A run of the `make_payment` child workflow: the activity calls it
issued and its exit outcome. -/
structure MakePaymentRun where
  calls : List PaymentCall
  outcome : WfOutcome
deriving DecidableEq, Repr

/-- Workflow `make_payment` from `schedule-payments-rust/src/workflows.rs`, as a
function of the `send_payment` activity's outcome: it issues exactly one
`send_payment` call with the payment and a 60s start-to-close timeout,
binds the result to `_result` (discarding it), and returns
`Ok(WfExitValue::Normal(()))`; on activity failure `unwrap_ok_payload`
panics. -/
def make_payment (payment : PaymentData)
    (activityResult : Except String SendPaymentResult) : MakePaymentRun :=
  { calls := [{ activity_type := "send_payment"
              , input := payment
              , start_to_close_timeout_secs := 60 }]
  , outcome :=
      match activityResult with
      | Except.ok _ => WfOutcome.normal
      | Except.error _ => WfOutcome.panicked }

/-- Number of failed entries among a list of child results. -/
def failedCount (rs : List ChildResult) : Nat :=
  rs.countP fun r =>
    match r with
    | ChildResult.failed => true
    | ChildResult.ok _ => false

/-- A concrete payment record used to instantiate theorems. -/
def samplePayment : PaymentData :=
  { schedule_time := 0
  , schedule := Schedule.Daily
  , amount_in_pence := 10000
  , sender_id := "sender"
  , recipient_id := "recipient" }

end SchedulePayments

namespace FoodOrdering

/-- An activity invocation issued by the order workflow.  The
`refund_payment` activity exists in
`food-ordering-rust/src/activities.rs`; the constructor is included so
that "the workflow invokes refund-payment" is expressible. -/
inductive OrderActivity where
  | take_payment
  | send_text_message (snapshot : OrderState)
  | refund_payment
deriving DecidableEq, Repr

/-- An activity call with its `start_to_close_timeout` in seconds. -/
structure OrderCall where
  activity : OrderActivity
  start_to_close_timeout_secs : Nat
deriving DecidableEq, Repr

/-- Exit outcome of the order workflow body: `Ok(WfExitValue::Normal(()))`
or a panic from `unwrap_ok_payload` on a failed activity. -/
inductive OrderOutcome where
  | normal
  | panicked
deriving DecidableEq, Repr

/-- Outcomes of the activities the order workflow awaits, as resolved by
the runtime after its retry policy (`true` = the activity eventually
succeeded, `false` = it failed and `unwrap_ok_payload` panics). -/
structure OrderEnv where
  take_payment_ok : Bool
  first_notify_ok : Bool
  final_notify_ok : Bool
deriving DecidableEq, Repr

/-- A run of the order workflow: the activity calls issued in order, the
successive values assigned to `state.status` (the forced initial
`Default` included), the state at the point the body stopped, and the exit
outcome. -/
structure OrderRun where
  calls : List OrderCall
  statusAssignments : List OrderStatus
  finalState : OrderState
  outcome : OrderOutcome
deriving DecidableEq, Repr

/-- Workflow `order_workflow` from `food-ordering-rust/src/workflows.rs`.  The body
is straight-line: force `status = Default`; call `take_payment` (60s) and
unwrap; set `status = Pending`; call `send_text_message` with a clone of
the state (60s) and unwrap; 10s timer; set `status = Completed`; call
`send_text_message` again (60s) and unwrap; return `Normal(())`.  There is
no failure branch: a failed activity panics the body at that point. -/
def order_workflow (env : OrderEnv) (input : OrderState) : OrderRun :=
  let s0 := { input with status := OrderStatus.Default }
  if !env.take_payment_ok then
    { calls := [{ activity := OrderActivity.take_payment, start_to_close_timeout_secs := 60 }]
    , statusAssignments := [OrderStatus.Default]
    , finalState := s0
    , outcome := OrderOutcome.panicked }
  else
    let s1 := { s0 with status := OrderStatus.Pending }
    if !env.first_notify_ok then
      { calls := [{ activity := OrderActivity.take_payment, start_to_close_timeout_secs := 60 },
                  { activity := OrderActivity.send_text_message s1, start_to_close_timeout_secs := 60 }]
      , statusAssignments := [OrderStatus.Default, OrderStatus.Pending]
      , finalState := s1
      , outcome := OrderOutcome.panicked }
    else
      let s2 := { s1 with status := OrderStatus.Completed }
      if !env.final_notify_ok then
        { calls := [{ activity := OrderActivity.take_payment, start_to_close_timeout_secs := 60 },
                    { activity := OrderActivity.send_text_message s1, start_to_close_timeout_secs := 60 },
                    { activity := OrderActivity.send_text_message s2, start_to_close_timeout_secs := 60 }]
        , statusAssignments := [OrderStatus.Default, OrderStatus.Pending, OrderStatus.Completed]
        , finalState := s2
        , outcome := OrderOutcome.panicked }
      else
        { calls := [{ activity := OrderActivity.take_payment, start_to_close_timeout_secs := 60 },
                    { activity := OrderActivity.send_text_message s1, start_to_close_timeout_secs := 60 },
                    { activity := OrderActivity.send_text_message s2, start_to_close_timeout_secs := 60 }]
        , statusAssignments := [OrderStatus.Default, OrderStatus.Pending, OrderStatus.Completed]
        , finalState := s2
        , outcome := OrderOutcome.normal }

/-- The uppercase status names matched by `OrderStatus::from_str`
(`food-ordering-rust/src/types.rs`), as character lists (Rust matches on
`&str`). -/
def defaultChars : List Char := ['D', 'E', 'F', 'A', 'U', 'L', 'T']

/-- Name `"PENDING"`. -/
def pendingChars : List Char := ['P', 'E', 'N', 'D', 'I', 'N', 'G']

/-- Name `"ACCEPTED"`. -/
def acceptedChars : List Char := ['A', 'C', 'C', 'E', 'P', 'T', 'E', 'D']

/-- Name `"PREPARING"`. -/
def preparingChars : List Char := ['P', 'R', 'E', 'P', 'A', 'R', 'I', 'N', 'G']

/-- Name `"READY"`. -/
def readyChars : List Char := ['R', 'E', 'A', 'D', 'Y']

/-- Name `"REJECTED"`. -/
def rejectedChars : List Char := ['R', 'E', 'J', 'E', 'C', 'T', 'E', 'D']

/-- Name `"COMPLETED"`. -/
def completedChars : List Char := ['C', 'O', 'M', 'P', 'L', 'E', 'T', 'E', 'D']

/-- The `match s.to_uppercase().as_str()` arm chain of
`OrderStatus::from_str`, matching the uppercased input `u` against the
seven names in the source's arm order; anything else yields
`Err(format!("Invalid status: {}", s))` with the original input `s`. -/
def matchUpper (s u : List Char) : Except (List Char) OrderStatus :=
  if u = defaultChars then Except.ok OrderStatus.Default
  else if u = pendingChars then Except.ok OrderStatus.Pending
  else if u = acceptedChars then Except.ok OrderStatus.Accepted
  else if u = preparingChars then Except.ok OrderStatus.Preparing
  else if u = readyChars then Except.ok OrderStatus.Ready
  else if u = rejectedChars then Except.ok OrderStatus.Rejected
  else if u = completedChars then Except.ok OrderStatus.Completed
  else Except.error (['I', 'n', 'v', 'a', 'l', 'i', 'd', ' ',
                      's', 't', 'a', 't', 'u', 's', ':', ' '] ++ s)

/-- Code point U+0131, latin small letter dotless i (`ı`), whose Unicode
uppercase mapping is the plain ASCII `I`. -/
def smallDotlessI : Char := Char.ofNat 305

/-- Fragment of Rust's `char::to_uppercase` (the Unicode uppercase
mapping, one character to possibly several).  The fragment is exact on the
basic-latin range — an ASCII letter maps to its uppercase ASCII letter,
every other ASCII character to itself, and no ASCII character has a
multi-character or non-ASCII uppercase — and at U+0131 (`ı`), whose
Unicode uppercase is `I`.  These are the only code points the statements
of this development evaluate it at; the remaining non-ASCII mappings of
the Unicode table are not reproduced, and no theorem below quantifies
over strings containing such characters. -/
def charToUppercase (c : Char) : List Char :=
  if c = smallDotlessI then ['I'] else [Char.toUpper c]

/-- Rust's `str::to_uppercase`: every character is replaced by its Unicode
uppercase mapping (character-wise, concatenating). -/
def to_uppercase (s : List Char) : List Char :=
  (s.map charToUppercase).flatten

/-- Parser method `OrderStatus::from_str` from `food-ordering-rust/src/types.rs`: the
input is uppercased (`s.to_uppercase()`, the Unicode mapping modelled by
`to_uppercase`) and matched against the seven names. -/
def from_str (s : List Char) : Except (List Char) OrderStatus :=
  matchUpper s (to_uppercase s)

/-- The `Display` implementation of `OrderStatus`
(`food-ordering-rust/src/types.rs`): each variant prints its uppercase
name. -/
def fmt : OrderStatus → List Char
  | OrderStatus.Default => defaultChars
  | OrderStatus.Pending => pendingChars
  | OrderStatus.Accepted => acceptedChars
  | OrderStatus.Preparing => preparingChars
  | OrderStatus.Ready => readyChars
  | OrderStatus.Rejected => rejectedChars
  | OrderStatus.Completed => completedChars

/-- Modelled from the spec: one character is a letter casing of another
when it is that character, or its lowercase form when the other is an
uppercase letter. -/
def charCasingOf (a b : Char) : Bool :=
  a = b || a = Char.toLower b

/-- Modelled from the spec: a string is a letter casing of another when
they agree character by character up to letter case. -/
def casingOf : List Char → List Char → Bool
  | [], [] => true
  | a :: s, b :: t => charCasingOf a b && casingOf s t
  | _, _ => false

/-- Number of `refund_payment` invocations among a list of calls. -/
def refundCalls (calls : List OrderCall) : Nat :=
  calls.countP fun c =>
    match c.activity with
    | OrderActivity.refund_payment => true
    | _ => false

/-- A cart command: `ADD_ITEM` or `REMOVE_ITEM`, applied to the order
state via `OrderState::add_item` / `OrderState::remove_item`. -/
inductive Op where
  | add (item : OrderProduct)
  | remove (item : OrderProduct)
deriving DecidableEq, Repr

/-- Apply a sequence of cart commands to a state. -/
def applyOps (s : OrderState) : List Op → OrderState
  | [] => s
  | Op.add item :: rest => applyOps (s.add_item item) rest
  | Op.remove item :: rest => applyOps (s.remove_item item) rest

/-- Whether `add_item item` would overflow the `u32` quantity of the entry
it merges into (the `quantity +=` of the source is unchecked). -/
def addOverflows (item : OrderProduct) : List OrderProduct → Bool
  | [] => false
  | e :: rest =>
    if e.product_id = item.product_id then
      decide (u32Mod ≤ e.quantity + item.quantity)
    else
      addOverflows item rest

/-- Whether executing a command sequence from `s` never performs an
overflowing quantity addition. -/
def opsNoOverflow (s : OrderState) : List Op → Bool
  | [] => true
  | Op.add item :: rest =>
    !addOverflows item s.products && opsNoOverflow (s.add_item item) rest
  | Op.remove item :: rest => opsNoOverflow (s.remove_item item) rest

/-- Every `ADD_ITEM` in the sequence carries a positive quantity. -/
def addsPositive (ops : List Op) : Bool :=
  ops.all fun op =>
    match op with
    | Op.add item => decide (0 < item.quantity)
    | Op.remove _ => true

/-- The quantity recorded for a product id: the first matching entry's
quantity, `0` when the product is absent. -/
def quantityOf (p : Nat) (l : List OrderProduct) : Nat :=
  match l.find? (fun e => e.product_id = p) with
  | some e => e.quantity
  | none => 0

/-- Modelled from the spec: the transition table of §4.1 —
`DEFAULT → PENDING → ACCEPTED → PREPARING → READY → COMPLETED` with the
side branch `PENDING|ACCEPTED|PREPARING → REJECTED`.  This is the
spec-side relation the code's status assignments are compared against. -/
def specAllowedEdge : OrderStatus → OrderStatus → Bool
  | OrderStatus.Default, OrderStatus.Pending => true
  | OrderStatus.Pending, OrderStatus.Accepted => true
  | OrderStatus.Accepted, OrderStatus.Preparing => true
  | OrderStatus.Preparing, OrderStatus.Ready => true
  | OrderStatus.Ready, OrderStatus.Completed => true
  | OrderStatus.Pending, OrderStatus.Rejected => true
  | OrderStatus.Accepted, OrderStatus.Rejected => true
  | OrderStatus.Preparing, OrderStatus.Rejected => true
  | _, _ => false

end FoodOrdering

namespace SchedulePayments

/-- The join loop returns every child result, in order. -/
theorem joinChildren_eq (rs : List ChildResult) : joinChildren rs = rs := by
  induction rs with
  | nil => rfl
  | cons r rest ih => simp [joinChildren, ih]

/-- C6: a record presented to the due-payment lookup is selected exactly
when it is Daily, or Weekly with anchor equal to today's ISO weekday
(1 = Monday), or Monthly with anchor equal to today's day of month. -/
theorem due_selection_correct (start_time end_time : Int) (now : Today)
    (data : List PaymentData) (p : PaymentData) :
    p ∈ find_payments_for_day start_time end_time now data ↔
      p ∈ data ∧
        (p.schedule = Schedule.Daily ∨
         (p.schedule = Schedule.Weekly ∧ p.schedule_time = now.isoWeekday) ∨
         (p.schedule = Schedule.Monthly ∧ p.schedule_time = now.day)) := by
  simp only [find_payments_for_day, List.mem_filter]
  constructor
  · rintro ⟨hmem, hdue⟩
    refine ⟨hmem, ?_⟩
    unfold isDue at hdue
    cases hp : p.schedule <;> rw [hp] at hdue <;> simp_all [Today.isoWeekday, eq_comm]
  · rintro ⟨hmem, hdue⟩
    refine ⟨hmem, ?_⟩
    unfold isDue
    cases hp : p.schedule <;> rw [hp] at hdue <;> simp_all [Today.isoWeekday, eq_comm]

/-- C9: the result of `find_payments_for_day` does not depend on its
`(start_time, end_time)` window arguments: for the same current date and
the same underlying data, any two windows yield the same due set. -/
theorem due_selection_window_independent (s1 e1 s2 e2 : Int) (now : Today)
    (data : List PaymentData) :
    find_payments_for_day s1 e1 now data = find_payments_for_day s2 e2 now data := rfl

/-- C9 witness evaluation at concrete windows. -/
theorem due_selection_window_independent_witness :
    find_payments_for_day 0 86400 { num_days_from_monday := 2, day := 15 }
        [samplePayment]
      = find_payments_for_day 500 1000 { num_days_from_monday := 2, day := 15 }
        [samplePayment] :=
  due_selection_window_independent 0 86400 500 1000
    { num_days_from_monday := 2, day := 15 } [samplePayment]

/-- C3 counterexample: two batches over the same three due payments, one
with one failed child and one with none, produce the same workflow output —
a bare `Normal(())` exit. The batch therefore does not report a summary of
exactly K failures and N−K successes. -/
theorem batch_no_summary_counterexample :
    failedCount [ChildResult.failed, ChildResult.ok ⟨10000, "t"⟩,
                 ChildResult.ok ⟨10000, "t"⟩] = 1
  ∧ failedCount [ChildResult.ok ⟨10000, "t"⟩, ChildResult.ok ⟨10000, "t"⟩,
                 ChildResult.ok ⟨10000, "t"⟩] = 0
  ∧ (find_due_payments_workflow [samplePayment, samplePayment, samplePayment]
       [ChildResult.failed, ChildResult.ok ⟨10000, "t"⟩,
        ChildResult.ok ⟨10000, "t"⟩]).output
    = (find_due_payments_workflow [samplePayment, samplePayment, samplePayment]
       [ChildResult.ok ⟨10000, "t"⟩, ChildResult.ok ⟨10000, "t"⟩,
        ChildResult.ok ⟨10000, "t"⟩]).output :=
  ⟨rfl, rfl, rfl⟩

/-- C3 amended: the batch orchestrator starts one child per due payment and
awaits every child's terminal result in order — an individual failure does
not abort the loop or the siblings — but it completes with a bare
`Normal(())` exit value, reporting no success/failure summary. -/
theorem batch_joins_all_reports_no_summary (payments : List PaymentData)
    (results : List ChildResult) :
    (find_due_payments_workflow payments results).awaited = results
  ∧ (find_due_payments_workflow payments results).started.length = payments.length
  ∧ (find_due_payments_workflow payments results).output = WfOutcome.normal := by
  refine ⟨joinChildren_eq results, ?_, rfl⟩
  simp [find_due_payments_workflow]

/-- C8 counterexample: two runs of `make_payment` whose `send_payment`
activity succeeds with different `SendPaymentResult`s are identical, so the
child workflow cannot be returning the `SendPaymentResult` to its parent —
it discards it and exits with `Normal(())`. -/
theorem make_payment_discards_result_counterexample :
    make_payment samplePayment (Except.ok ⟨100, "a"⟩)
      = make_payment samplePayment (Except.ok ⟨200, "b"⟩)
  ∧ SendPaymentResult.mk 100 "a" ≠ SendPaymentResult.mk 200 "b" :=
  ⟨rfl, fun h =>
    absurd (congrArg SendPaymentResult.amount_in_pence h) (by decide)⟩

/-- C8 amended: `make_payment` calls the `send_payment` activity exactly
once with its payment record and a 60-second start-to-close timeout; on
activity success it completes normally with a unit exit value — the
`SendPaymentResult` is discarded, not returned to the parent. -/
theorem make_payment_calls_once (payment : PaymentData)
    (res : Except String SendPaymentResult) :
    (make_payment payment res).calls
      = [{ activity_type := "send_payment", input := payment
         , start_to_close_timeout_secs := 60 }]
  ∧ (∀ r, res = Except.ok r → (make_payment payment res).outcome = WfOutcome.normal)
  ∧ (∀ r1 r2 : SendPaymentResult,
       make_payment payment (Except.ok r1) = make_payment payment (Except.ok r2)) := by
  refine ⟨rfl, ?_, fun r1 r2 => rfl⟩
  rintro r rfl
  rfl

/-- C8 amended, witness at a concrete successful run. -/
theorem make_payment_calls_once_witness :
    (make_payment samplePayment (Except.ok ⟨100, "a"⟩)).outcome = WfOutcome.normal :=
  (make_payment_calls_once samplePayment (Except.ok ⟨100, "a"⟩)).2.1 ⟨100, "a"⟩ rfl

end SchedulePayments

namespace FoodOrdering

/-- C1 counterexample: in the run where the take-payment activity fails
(retries exhausted), the order does not end in status `REJECTED` — the
workflow body panics with the status still `DEFAULT` — and the
refund-payment activity is invoked zero times, not once. -/
theorem order_reject_refund_counterexample :
    (order_workflow ⟨false, true, true⟩ OrderState.new).finalState.status
      = OrderStatus.Default
  ∧ (order_workflow ⟨false, true, true⟩ OrderState.new).finalState.status
      ≠ OrderStatus.Rejected
  ∧ refundCalls (order_workflow ⟨false, true, true⟩ OrderState.new).calls = 0
  ∧ (order_workflow ⟨false, true, true⟩ OrderState.new).outcome
      = OrderOutcome.panicked := by
  decide

/-- C1 amended: no execution of the order workflow ever invokes the
refund-payment activity (the activity exists but is never called), and when
the take-payment activity fails the workflow panics with the order status
still `DEFAULT` — it never transitions to `REJECTED` and performs no
compensation. -/
theorem order_workflow_never_refunds (env : OrderEnv) (input : OrderState) :
    refundCalls (order_workflow env input).calls = 0
  ∧ (env.take_payment_ok = false →
      (order_workflow env input).outcome = OrderOutcome.panicked
      ∧ (order_workflow env input).finalState.status = OrderStatus.Default) := by
  obtain ⟨a, b, c⟩ := env
  cases a <;> cases b <;> cases c <;>
    simp [order_workflow, refundCalls, List.countP_cons, List.countP_nil]

/-- C1 amended, witness at the failing-payment run. -/
theorem order_workflow_never_refunds_witness :
    (order_workflow ⟨false, true, true⟩ OrderState.new).outcome = OrderOutcome.panicked
  ∧ (order_workflow ⟨false, true, true⟩ OrderState.new).finalState.status
      = OrderStatus.Default :=
  (order_workflow_never_refunds ⟨false, true, true⟩ OrderState.new).2 rfl

/-- C2 counterexample: the fully successful run assigns the statuses
`DEFAULT, PENDING, COMPLETED` in order, and the step from `PENDING`
directly to `COMPLETED` is not an edge of the spec's transition table — the
workflow skips `ACCEPTED`, `PREPARING` and `READY`. -/
theorem order_status_jump_counterexample :
    (order_workflow ⟨true, true, true⟩ OrderState.new).statusAssignments
      = [OrderStatus.Default, OrderStatus.Pending, OrderStatus.Completed]
  ∧ specAllowedEdge OrderStatus.Pending OrderStatus.Completed = false :=
  ⟨rfl, rfl⟩

/-- C2 amended: every run's status assignments are a prefix of
`DEFAULT, PENDING, COMPLETED` (cut short where an activity fails): the
workflow never assigns `ACCEPTED`, `PREPARING`, `READY` or `REJECTED`, no
assignment follows `COMPLETED`, and its one non-initial progression
`PENDING → COMPLETED` crosses a non-edge of the spec's transition table. -/
theorem order_status_trace (env : OrderEnv) (input : OrderState) :
    ((order_workflow env input).statusAssignments = [OrderStatus.Default]
     ∨ (order_workflow env input).statusAssignments
         = [OrderStatus.Default, OrderStatus.Pending]
     ∨ (order_workflow env input).statusAssignments
         = [OrderStatus.Default, OrderStatus.Pending, OrderStatus.Completed])
  ∧ OrderStatus.Rejected ∉ (order_workflow env input).statusAssignments
  ∧ specAllowedEdge OrderStatus.Pending OrderStatus.Completed = false := by
  obtain ⟨a, b, c⟩ := env
  cases a <;> cases b <;> cases c <;>
    refine ⟨by simp [order_workflow], by simp [order_workflow], rfl⟩

/-- Entries produced by one `add_item` merge/push step stay positive when
the incoming quantity is positive, the list's entries are positive and the
step does not overflow. -/
theorem addToProducts_pos (item : OrderProduct) (l : List OrderProduct)
    (hl : ∀ e ∈ l, 0 < e.quantity) (hq : 0 < item.quantity)
    (hov : addOverflows item l = false) :
    ∀ e ∈ addToProducts item l, 0 < e.quantity := by
  induction l with
  | nil =>
    intro e he
    simp only [addToProducts, List.mem_singleton] at he
    subst he
    exact hq
  | cons a rest ih =>
    intro e he
    by_cases hpid : a.product_id = item.product_id
    · simp only [addToProducts, if_pos hpid] at he
      simp only [addOverflows, if_pos hpid, decide_eq_false_iff_not, not_le] at hov
      rcases List.mem_cons.mp he with he | he
      · subst he
        simpa [Nat.mod_eq_of_lt hov] using
          Nat.lt_of_lt_of_le hq (Nat.le_add_left _ _)
      · exact hl e (List.mem_cons_of_mem _ he)
    · simp only [addToProducts, if_neg hpid] at he
      simp only [addOverflows, if_neg hpid] at hov
      rcases List.mem_cons.mp he with he | he
      · subst he
        exact hl e (List.mem_cons_self _ _)
      · exact ih (fun x hx => hl x (List.mem_cons_of_mem _ hx)) hov e he

/-- Entries surviving a `remove_item` pass stay positive. -/
theorem removeFromProducts_pos (item : OrderProduct) (l : List OrderProduct)
    (hl : ∀ e ∈ l, 0 < e.quantity) :
    ∀ e ∈ removeFromProducts item l, 0 < e.quantity := by
  intro e he
  unfold removeFromProducts at he
  rw [List.mem_filterMap] at he
  obtain ⟨a, ha, hfa⟩ := he
  by_cases hpid : a.product_id = item.product_id
  · rw [if_pos hpid] at hfa
    by_cases hq : a.quantity - item.quantity > 0
    · rw [if_pos hq] at hfa
      have h := Option.some.inj hfa
      have hpos : 0 < ({ a with quantity := a.quantity - item.quantity } :
          OrderProduct).quantity := by simpa using hq
      exact h ▸ hpos
    · rw [if_neg hq] at hfa
      cases hfa
  · rw [if_neg hpid] at hfa
    exact Option.some.inj hfa ▸ hl a ha

/-- Invariant carrier for C4: positive quantities are preserved by any
command sequence whose adds are positive and never overflow. -/
theorem applyOps_pos (ops : List Op) (s : OrderState)
    (hs : ∀ e ∈ s.products, 0 < e.quantity)
    (hpos : addsPositive ops = true)
    (hov : opsNoOverflow s ops = true) :
    ∀ e ∈ (applyOps s ops).products, 0 < e.quantity := by
  induction ops generalizing s with
  | nil => simpa [applyOps] using hs
  | cons op rest ih =>
    cases op with
    | add item =>
      simp only [addsPositive, List.all_cons, Bool.and_eq_true,
        decide_eq_true_eq] at hpos
      simp only [opsNoOverflow, Bool.and_eq_true, Bool.not_eq_true'] at hov
      exact ih (s.add_item item)
        (addToProducts_pos item s.products hs hpos.1 hov.1)
        (by simpa [addsPositive] using hpos.2) hov.2
    | remove item =>
      simp only [addsPositive, List.all_cons, Bool.and_eq_true] at hpos
      simp only [opsNoOverflow] at hov
      exact ih (s.remove_item item)
        (removeFromProducts_pos item s.products hs)
        (by simpa [addsPositive] using hpos.2) hov

/-- C4 counterexample: `add_item` pushes a zero-quantity entry verbatim,
and a positive-quantity add that wraps past the `u32` maximum leaves a
zero-quantity entry as well — the products list can contain an entry with
quantity 0. -/
theorem cart_zero_quantity_counterexample :
    (∃ e ∈ (applyOps OrderState.new [Op.add ⟨1, 0⟩]).products, e.quantity = 0)
  ∧ (∃ e ∈ (applyOps OrderState.new
        [Op.add ⟨1, 4294967295⟩, Op.add ⟨1, 1⟩]).products, e.quantity = 0) := by
  decide

/-- C4 amended: for every sequence of `ADD_ITEM`/`REMOVE_ITEM` operations
from the empty order in which every added quantity is positive and no add
wraps past the `u32` maximum, the resulting products list never contains an
entry with quantity ≤ 0. -/
theorem cart_quantities_positive (ops : List Op)
    (hpos : addsPositive ops = true)
    (hov : opsNoOverflow OrderState.new ops = true) :
    ∀ e ∈ (applyOps OrderState.new ops).products, 0 < e.quantity :=
  applyOps_pos ops OrderState.new (by simp [OrderState.new]) hpos hov

/-- C4 amended, witness on a concrete command sequence. -/
theorem cart_quantities_positive_witness :
    addsPositive [Op.add ⟨1, 2⟩, Op.add ⟨1, 1⟩, Op.remove ⟨1, 1⟩] = true
  ∧ opsNoOverflow OrderState.new [Op.add ⟨1, 2⟩, Op.add ⟨1, 1⟩, Op.remove ⟨1, 1⟩]
      = true
  ∧ ∀ e ∈ (applyOps OrderState.new
        [Op.add ⟨1, 2⟩, Op.add ⟨1, 1⟩, Op.remove ⟨1, 1⟩]).products,
      0 < e.quantity :=
  ⟨by decide, by decide, cart_quantities_positive _ (by decide) (by decide)⟩

/-- Two `add_item` merges for the same product id commute. -/
theorem addToProducts_comm (l : List OrderProduct) (p a b : Nat) :
    addToProducts ⟨p, b⟩ (addToProducts ⟨p, a⟩ l)
      = addToProducts ⟨p, a⟩ (addToProducts ⟨p, b⟩ l) := by
  induction l with
  | nil =>
    simp [addToProducts, Nat.add_comm a b]
  | cons e rest ih =>
    by_cases hpid : e.product_id = p
    · simp only [addToProducts, if_pos hpid]
      rw [Nat.mod_add_mod, Nat.mod_add_mod, Nat.add_assoc, Nat.add_assoc,
        Nat.add_comm a b]
    · simp only [addToProducts, if_neg hpid, ih]

/-- Skipping a non-matching head entry leaves the recorded quantity of a
product unchanged. -/
theorem quantityOf_cons_of_ne (e : OrderProduct) (l : List OrderProduct)
    (p : Nat) (h : ¬ e.product_id = p) :
    quantityOf p (e :: l) = quantityOf p l := by
  simp [quantityOf, List.find?_cons, h]

/-- After adding quantities `a` then `b` for product `p`, the recorded
quantity is the wrapped sum of the prior quantity with `a + b`. -/
theorem quantityOf_add_add (l : List OrderProduct) (p a b : Nat) :
    quantityOf p (addToProducts ⟨p, b⟩ (addToProducts ⟨p, a⟩ l))
      = (quantityOf p l + a + b) % u32Mod := by
  induction l with
  | nil =>
    simp [addToProducts, quantityOf, List.find?_cons]
  | cons e rest ih =>
    by_cases hpid : e.product_id = p
    · simp only [addToProducts, if_pos hpid]
      simp [quantityOf, List.find?_cons, hpid, Nat.mod_add_mod]
    · simp only [addToProducts, if_neg hpid]
      rw [quantityOf_cons_of_ne e _ p hpid, quantityOf_cons_of_ne e _ p hpid, ih]

/-- An `add_item` step for product `p` leaves exactly `max (count) 1`
entries for `p`: it merges into the first matching entry, or pushes one
when none matches. -/
theorem countP_addToProducts (l : List OrderProduct) (p x : Nat) :
    (addToProducts ⟨p, x⟩ l).countP (fun e => e.product_id == p)
      = max (l.countP (fun e => e.product_id == p)) 1 := by
  induction l with
  | nil => simp [addToProducts]
  | cons e rest ih =>
    by_cases hpid : e.product_id = p
    · simp only [addToProducts, if_pos hpid]
      simp [List.countP_cons, hpid]
    · simp only [addToProducts, if_neg hpid]
      simp only [List.countP_cons, ih]
      simp [hpid]

/-- C5 counterexample: adding quantities 4294967295 and 1 for the same
product id to the empty cart yields the wrapped quantity 0, not the
saturated sum `min (4294967295 + 1) 4294967295 = 4294967295` the claim
requires. -/
theorem add_item_saturation_counterexample :
    quantityOf 1 ((OrderState.new.add_item ⟨1, 4294967295⟩).add_item
        ⟨1, 1⟩).products = 0
  ∧ quantityOf 1 ((OrderState.new.add_item ⟨1, 4294967295⟩).add_item
        ⟨1, 1⟩).products ≠ min (4294967295 + 1) 4294967295 := by
  decide

/-- C5 amended: two `ADD_ITEM`s with the same product id merge into a
single entry for states holding at most one entry for that id, the merged
total is the prior quantity plus `a + b` wrapped modulo `2^32` (not
saturated), and the result is independent of the order of the two adds. -/
theorem add_item_merge_wrapping (s : OrderState) (p a b : Nat) :
    (s.add_item ⟨p, a⟩).add_item ⟨p, b⟩ = (s.add_item ⟨p, b⟩).add_item ⟨p, a⟩
  ∧ quantityOf p ((s.add_item ⟨p, a⟩).add_item ⟨p, b⟩).products
      = (quantityOf p s.products + a + b) % u32Mod
  ∧ (s.products.countP (fun e => e.product_id == p) ≤ 1 →
      ((s.add_item ⟨p, a⟩).add_item ⟨p, b⟩).products.countP
          (fun e => e.product_id == p) = 1) := by
  refine ⟨?_, ?_, ?_⟩
  · simp only [OrderState.add_item]
    rw [addToProducts_comm]
  · exact quantityOf_add_add s.products p a b
  · intro h
    show (addToProducts ⟨p, b⟩ (addToProducts ⟨p, a⟩ s.products)).countP _ = 1
    rw [countP_addToProducts, countP_addToProducts]
    omega

/-- C5 amended, witness on a concrete cart. -/
theorem add_item_merge_wrapping_witness :
    ((OrderState.new.add_item ⟨1, 2⟩).add_item ⟨1, 3⟩).products.countP
        (fun e => e.product_id == 1) = 1 :=
  (add_item_merge_wrapping OrderState.new 1 2 3).2.2 (by decide)

/-- A `remove_item` pass over a list with no matching entry is the
identity. -/
theorem removeFromProducts_id (item : OrderProduct) (l : List OrderProduct)
    (h : ∀ e ∈ l, e.product_id ≠ item.product_id) :
    removeFromProducts item l = l := by
  induction l with
  | nil => rfl
  | cons a rest ih =>
    have ha := h a (List.mem_cons_self a rest)
    simp only [removeFromProducts, List.filterMap_cons, if_neg ha]
    have := ih fun e he => h e (List.mem_cons_of_mem a he)
    simp only [removeFromProducts] at this
    rw [this]

/-- C7: `remove_item(productId, quantity)` leaves the state unchanged when
no entry matches (a no-op, not an error); on a matching entry it
decrements the quantity, floored at zero: the entry survives with quantity
`q0 − q` when `q < q0`, and is deleted when `q0 ≤ q` (removing more than
the current quantity included); entries for other product ids are kept. -/
theorem remove_item_spec (s : OrderState) (p q : Nat) :
    ((∀ e ∈ s.products, e.product_id ≠ p) → s.remove_item ⟨p, q⟩ = s)
  ∧ (∀ e ∈ s.products, e.product_id = p → q < e.quantity →
      OrderProduct.mk p (e.quantity - q) ∈ (s.remove_item ⟨p, q⟩).products)
  ∧ ((s.products.map OrderProduct.product_id).Nodup →
      ∀ e ∈ s.products, e.product_id = p → e.quantity ≤ q →
        ∀ x ∈ (s.remove_item ⟨p, q⟩).products, x.product_id ≠ p)
  ∧ (∀ e ∈ s.products, e.product_id ≠ p → e ∈ (s.remove_item ⟨p, q⟩).products) := by
  refine ⟨?_, ?_, ?_, ?_⟩
  · intro h
    show ({ s with products := removeFromProducts ⟨p, q⟩ s.products } : OrderState) = s
    rw [removeFromProducts_id _ _ h]
  · intro e he hpe hq
    show _ ∈ removeFromProducts ⟨p, q⟩ s.products
    rw [removeFromProducts, List.mem_filterMap]
    refine ⟨e, he, ?_⟩
    rw [if_pos hpe, if_pos (Nat.sub_pos_of_lt hq)]
    obtain ⟨epid, equant⟩ := e
    cases hpe
    rfl
  · intro hnd e he hpe hle x hx hxp
    rw [OrderState.remove_item] at hx
    simp only at hx
    rw [removeFromProducts, List.mem_filterMap] at hx
    obtain ⟨a, ha, hfa⟩ := hx
    by_cases hap : a.product_id = p
    · have hae : a = e :=
        List.inj_on_of_nodup_map hnd ha he (by rw [hap, hpe])
      subst hae
      rw [if_pos hap, if_neg (show ¬ a.quantity - q > 0 by omega)] at hfa
      cases hfa
    · rw [if_neg hap] at hfa
      exact hap (Option.some.inj hfa ▸ hxp)
  · intro e he hne
    show _ ∈ removeFromProducts ⟨p, q⟩ s.products
    rw [removeFromProducts, List.mem_filterMap]
    exact ⟨e, he, by rw [if_neg hne]⟩

/-- C7 witness: in the cart `{1: 3, 2: 1}`, removing 1 of product 1 keeps
the entry at quantity 2, and removing 5 of product 1 deletes the entry. -/
theorem remove_item_spec_witness :
    OrderProduct.mk 1 2 ∈
      (({ OrderState.new with products := [⟨1, 3⟩, ⟨2, 1⟩] } :
        OrderState).remove_item ⟨1, 1⟩).products
  ∧ ∀ x ∈ (({ OrderState.new with products := [⟨1, 3⟩, ⟨2, 1⟩] } :
        OrderState).remove_item ⟨1, 5⟩).products, x.product_id ≠ 1 :=
  ⟨(remove_item_spec _ 1 1).2.1 ⟨1, 3⟩ (by decide) rfl (by decide),
   (remove_item_spec _ 1 5).2.2.1 (by decide) ⟨1, 3⟩ (by decide) rfl (by decide)⟩

/-- Characters are determined by their code points. -/
theorem char_toNat_inj {a b : Char} (h : a.toNat = b.toNat) : a = b := by
  have h2 := congrArg Char.ofNat h
  rwa [Char.ofNat_toNat, Char.ofNat_toNat] at h2

/-- Code point of `Char.ofNat` below the surrogate range. -/
theorem char_toNat_ofNat {n : Nat} (h : n < 55296) : (Char.ofNat n).toNat = n := by
  have hv : n.isValidChar := Or.inl h
  rw [Char.ofNat, dif_pos hv]
  rfl

/-- Code point of `Char.toUpper`: basic-latin lowercase letters move down
by 32, all other characters are fixed. -/
theorem toNat_toUpper (a : Char) :
    (Char.toUpper a).toNat =
      if 97 ≤ a.toNat ∧ a.toNat ≤ 122 then a.toNat - 32 else a.toNat := by
  rw [Char.toUpper]
  split
  · next h => exact char_toNat_ofNat (by omega)
  · next h => rfl

/-- Code point of `Char.toLower`: basic-latin uppercase letters move up by
32, all other characters are fixed. -/
theorem toNat_toLower (a : Char) :
    (Char.toLower a).toNat =
      if 65 ≤ a.toNat ∧ a.toNat ≤ 90 then a.toNat + 32 else a.toNat := by
  rw [Char.toLower]
  split
  · next h => exact char_toNat_ofNat (by omega)
  · next h => rfl

/-- For an uppercase basic-latin letter `b`, a character uppercases to `b`
exactly when it is `b` or its lowercase form. -/
theorem toUpper_eq_iff_casing (a b : Char) (h1 : 65 ≤ b.toNat) (h2 : b.toNat ≤ 90) :
    Char.toUpper a = b ↔ charCasingOf a b = true := by
  have hl : (Char.toLower b).toNat = b.toNat + 32 := by
    rw [toNat_toLower, if_pos ⟨h1, h2⟩]
  simp only [charCasingOf, Bool.or_eq_true, decide_eq_true_eq]
  constructor
  · intro h
    have hn := congrArg Char.toNat h
    rw [toNat_toUpper] at hn
    by_cases hr : 97 ≤ a.toNat ∧ a.toNat ≤ 122
    · right
      rw [if_pos hr] at hn
      exact char_toNat_inj (by omega)
    · left
      rw [if_neg hr] at hn
      exact char_toNat_inj hn
  · rintro (rfl | rfl)
    · exact char_toNat_inj (by rw [toNat_toUpper, if_neg (by omega)])
    · exact char_toNat_inj (by rw [toNat_toUpper, hl, if_pos (by omega)]; omega)

/-- Over all-uppercase names, character-wise uppercasing to the name is
exactly the letter-casing relation of the spec. -/
theorem map_toUpper_eq_iff_casing (s t : List Char)
    (ht : ∀ c ∈ t, 65 ≤ c.toNat ∧ c.toNat ≤ 90) :
    s.map Char.toUpper = t ↔ casingOf s t = true := by
  induction s generalizing t with
  | nil =>
    cases t with
    | nil => simp [casingOf]
    | cons b t => simp [casingOf]
  | cons a s ih =>
    cases t with
    | nil => simp [casingOf]
    | cons b t =>
      have hb := ht b (List.mem_cons_self b t)
      have hrest := ih t fun c hc => ht c (List.mem_cons_of_mem b hc)
      rw [List.map_cons]
      show _ ↔ (charCasingOf a b && casingOf s t) = true
      rw [Bool.and_eq_true, List.cons_eq_cons]
      rw [toUpper_eq_iff_casing a b hb.1 hb.2, hrest]

/-- The name-matching chain succeeds with status `st` exactly when the
uppercased input is `st`'s printed name. -/
theorem matchUpper_ok_iff (s u : List Char) (st : OrderStatus) :
    matchUpper s u = Except.ok st ↔ u = fmt st := by
  constructor
  · intro h
    rw [matchUpper] at h
    split_ifs at h with h1 h2 h3 h4 h5 h6 h7
    all_goals injection h with h9
    all_goals subst h9
    all_goals assumption
  · rintro rfl
    cases st <;> rfl

/-- On ASCII strings, Rust's Unicode uppercasing coincides with
character-wise ASCII uppercasing (no ASCII character has a multi-character
or non-ASCII uppercase). -/
theorem to_uppercase_ascii (s : List Char) (h : ∀ c ∈ s, c.toNat < 128) :
    to_uppercase s = s.map Char.toUpper := by
  induction s with
  | nil => rfl
  | cons c rest ih =>
    have hc : c.toNat < 128 := h c (List.mem_cons_self c rest)
    have h305 : smallDotlessI.toNat = 305 := char_toNat_ofNat (by omega)
    have hne : c ≠ smallDotlessI := by
      intro hcc
      rw [hcc, h305] at hc
      omega
    have hrest := ih fun x hx => h x (List.mem_cons_of_mem c hx)
    simp only [to_uppercase, List.map_cons, List.flatten_cons] at hrest ⊢
    rw [charToUppercase, if_neg hne, hrest]
    rfl

/-- A letter casing of an all-uppercase-ASCII name is itself ASCII. -/
theorem casing_ascii (s t : List Char)
    (ht : ∀ c ∈ t, 65 ≤ c.toNat ∧ c.toNat ≤ 90)
    (h : casingOf s t = true) : ∀ c ∈ s, c.toNat < 128 := by
  induction s generalizing t with
  | nil =>
    intro c hc
    cases hc
  | cons a s ih =>
    cases t with
    | nil => cases h
    | cons b t =>
      have hb := ht b (List.mem_cons_self b t)
      have h2 : (charCasingOf a b && casingOf s t) = true := h
      rw [Bool.and_eq_true] at h2
      intro c hc
      rcases List.mem_cons.mp hc with rfl | hc2
      · have h3 := h2.1
        simp only [charCasingOf, Bool.or_eq_true, decide_eq_true_eq] at h3
        rcases h3 with rfl | rfl
        · omega
        · have h4 := toNat_toLower b
          rw [if_pos ⟨hb.1, hb.2⟩] at h4
          omega
      · exact ih t (fun x hx => ht x (List.mem_cons_of_mem b hx)) h2.2 c hc2

/-- C10 counterexample: Rust's Unicode uppercasing maps U+0131 (dotless
`ı`) to `I`, so the string `pendıng` parses to `Ok(Pending)` although it
is not a letter casing of `PENDING`, nor of any other status name —
parsing does not return an error on every non-casing string. -/
theorem parse_non_casing_counterexample :
    from_str ['p', 'e', 'n', 'd', smallDotlessI, 'n', 'g']
      = Except.ok OrderStatus.Pending
  ∧ ∀ st : OrderStatus,
      casingOf ['p', 'e', 'n', 'd', smallDotlessI, 'n', 'g'] (fmt st) = false := by
  constructor
  · rfl
  · intro st
    cases st <;> rfl

/-- C10 amended: printing any `OrderStatus` and re-parsing returns the
same status (round-trip); any letter casing of one of the seven printed
names parses to its status; and on ASCII strings the parse succeeds
exactly on the letter casings — every ASCII string that is a casing of no
name parses to an error.  Unrestricted, the error clause fails: Unicode
uppercasing lets the non-ASCII non-casing `pendıng` parse to `Pending`. -/
theorem order_status_parse_display (st : OrderStatus) (s : List Char) :
    from_str (fmt st) = Except.ok st
  ∧ (casingOf s (fmt st) = true → from_str s = Except.ok st)
  ∧ ((∀ c ∈ s, c.toNat < 128) →
      (from_str s = Except.ok st ↔ casingOf s (fmt st) = true))
  ∧ ((∀ c ∈ s, c.toNat < 128) →
      (∀ st2 : OrderStatus, casingOf s (fmt st2) = false) →
      ∃ msg, from_str s = Except.error msg) := by
  have hup : ∀ st2 : OrderStatus, ∀ c ∈ fmt st2, 65 ≤ c.toNat ∧ c.toNat ≤ 90 := by
    intro st2
    cases st2 <;> decide
  have key : ∀ st2 : OrderStatus, (∀ c ∈ s, c.toNat < 128) →
      (from_str s = Except.ok st2 ↔ casingOf s (fmt st2) = true) := by
    intro st2 hascii
    rw [from_str, to_uppercase_ascii s hascii, matchUpper_ok_iff]
    exact map_toUpper_eq_iff_casing s (fmt st2) (hup st2)
  refine ⟨?_, ?_, key st, ?_⟩
  · cases st <;> rfl
  · intro hcasing
    have hascii := casing_ascii s (fmt st) (hup st) hcasing
    exact (key st hascii).mpr hcasing
  · intro hascii hall
    cases hres : from_str s with
    | error msg => exact ⟨msg, rfl⟩
    | ok st2 =>
      have h2 := (key st2 hascii).mp hres
      rw [hall st2] at h2
      cases h2

/-- C10 amended, witness: an ASCII string that is a casing of no status
name parses to an error. -/
theorem order_status_parse_display_witness :
    ∃ msg, from_str ['x'] = Except.error msg :=
  (order_status_parse_display OrderStatus.Default ['x']).2.2.2
    (by decide) (by intro st2; cases st2 <;> rfl)

end FoodOrdering
